import Mathlib

/-!
Verification development for the Pet-Log repository.

The repository is a small Next.js CRUD application over a single MySQL
table of pet-care events.  This file gives a shallow embedding of the
parts of the code the specification's claims are about:

* the Log row shape and the store (the logs table plus its
  auto-increment counter), from src/app/api/logs/route.ts and
  db/schema.sql;
* the four current route handlers GET and POST on the collection
  (src/app/api/logs/route.ts) and PUT and DELETE by id
  (src/app/api/logs/[id]/route.ts);
* the legacy variant of the by-id handlers present in the repository
  (the unnamed source file: a PUT that does not stamp updated_at and a
  PUT/DELETE pair that perform no session check);
* the NextAuth configuration (authorize and the jwt callback) from the
  auth module;
* the client-side merge performed after a successful update
  (src/app/page.tsx, handleSubmit).

Machine-level conventions of the embedding: timestamps are epoch
milliseconds as Int; JSON string fields are Option String with none for
an absent field; the JavaScript falsiness test on such a field is
"absent or empty".  The host date parser (new Date(s)) is passed to the
handlers as an explicit parameter dp : String -> Option Int because
ECMA-262 leaves non-ISO date string parsing implementation-defined.
-/

/-- One row of the logs table, as selected by the route handlers
(SELECT id, pet_name AS petName, task, time, created_at AS createdAt,
updated_at AS updatedAt FROM logs). -/
structure Log where
  id : Int
  petName : String
  task : String
  time : Int
  createdAt : Int
  updatedAt : Int
deriving DecidableEq, Repr

/-- The persistent state the handlers touch: the rows of the logs table
together with the AUTO_INCREMENT counter that yields insertId. -/
structure Store where
  rows : List Log
  nextId : Int
deriving DecidableEq, Repr

/-- The user object inside a NextAuth session as the route handlers read
it: only the role claim is consulted (session.user?.role). -/
structure SessionUser where
  role : Option String
deriving DecidableEq, Repr

/-- A NextAuth session as seen by the route handlers; user may be
absent. -/
structure Session where
  user : Option SessionUser
deriving DecidableEq, Repr

/-- The JSON responses the handlers produce: a list of rows, a single
row, the delete acknowledgment, or an error message, each with its HTTP
status. -/
inductive ApiResponse where
  | rows (status : Nat) (logs : List Log)
  | row (status : Nat) (log : Log)
  | ack (status : Nat) (success : Bool)
  | error (status : Nat) (message : String)
deriving DecidableEq, Repr

/-- The JSON request body of POST and PUT: the three fields, each
possibly absent. -/
structure Body where
  petName : Option String
  task : Option String
  time : Option String
deriving DecidableEq, Repr

/-- ECMA-262 WhiteSpace and LineTerminator code points, the set trimmed
by String.prototype.trim and skipped by Number(string). -/
def jsIsWs (c : Char) : Bool :=
  c == ' ' || c == '\t' || c == '\n' || c == '\r' ||
  c.toNat == 11 || c.toNat == 12 || c.toNat == 0xA0 || c.toNat == 0xFEFF ||
  c.toNat == 0x1680 || (0x2000 ≤ c.toNat && c.toNat ≤ 0x200A) ||
  c.toNat == 0x2028 || c.toNat == 0x2029 || c.toNat == 0x202F ||
  c.toNat == 0x205F || c.toNat == 0x3000

/-- Drop leading and trailing JavaScript whitespace from a character
list. -/
def trimWsChars (cs : List Char) : List Char :=
  ((cs.dropWhile jsIsWs).reverse.dropWhile jsIsWs).reverse

/-- JavaScript String.prototype.trim, as applied to petName and task by
the handlers before insertion. -/
def jsTrim (s : String) : String :=
  String.mk (trimWsChars s.data)

/-- Value of a list of decimal digit characters. -/
def decDigitsVal (cs : List Char) : Nat :=
  cs.foldl (fun a c => 10 * a + (c.toNat - 48)) 0

/-- Digit value in a given base, none for a character outside the
base. -/
def baseDigitVal? (base : Nat) (c : Char) : Option Nat :=
  let d :=
    if c.isDigit then some (c.toNat - 48)
    else if 'a' ≤ c && c ≤ 'f' then some (c.toNat - 87)
    else if 'A' ≤ c && c ≤ 'F' then some (c.toNat - 55)
    else none
  match d with
  | some v => if v < base then some v else none
  | none => none

/-- Value of a non-empty digit string in a given base, none when empty
or when a character is not a digit of the base. -/
def baseDigitsVal? (base : Nat) (cs : List Char) : Option Nat :=
  if cs.isEmpty then none
  else
    cs.foldl
      (fun a c =>
        match a, baseDigitVal? base c with
        | some x, some d => some (base * x + d)
        | _, _ => none)
      (some 0)

/-- Decimal branch of the JavaScript string-to-number conversion,
composed with the Number.isInteger guard: for a trimmed, non-empty
character list, returns the value when it is a StrDecimalLiteral with an
integer value, none when it is not a literal (NaN), is Infinity, or has
a non-integer value.  Exact integer arithmetic stands in for IEEE
doubles; the handlers only ever use ids that are small integers. -/
def parseDecimalToInt (cs : List Char) : Option Int :=
  let signed : Bool × List Char :=
    match cs with
    | '-' :: t => (true, t)
    | '+' :: t => (false, t)
    | _ => (false, cs)
  let neg := signed.1
  let cs1 := signed.2
  if cs1 = "Infinity".data then none
  else
    let ip := cs1.takeWhile Char.isDigit
    let rest1 := cs1.dropWhile Char.isDigit
    let fracSplit : List Char × List Char :=
      match rest1 with
      | '.' :: t => (t.takeWhile Char.isDigit, t.dropWhile Char.isDigit)
      | _ => ([], rest1)
    let fp := fracSplit.1
    let rest2 := fracSplit.2
    let expo : Option Int :=
      match rest2 with
      | [] => some 0
      | c :: t =>
        if c == 'e' || c == 'E' then
          let esigned : Bool × List Char :=
            match t with
            | '-' :: u => (true, u)
            | '+' :: u => (false, u)
            | _ => (false, t)
          if esigned.2 ≠ [] ∧ esigned.2.all Char.isDigit then
            some (if esigned.1 then -(decDigitsVal esigned.2 : Int)
                  else (decDigitsVal esigned.2 : Int))
          else none
        else none
    if ip = [] ∧ fp = [] then none
    else
      match expo with
      | none => none
      | some e =>
        let mant : Nat := decDigitsVal (ip ++ fp)
        let k : Int := e - fp.length
        let mag : Option Nat :=
          if 0 ≤ k then some (mant * 10 ^ k.toNat)
          else if 10 ^ (-k).toNat ∣ mant then some (mant / 10 ^ (-k).toNat)
          else none
        mag.map (fun m => if neg then -(m : Int) else (m : Int))

/-- Composite of the two id-validation steps of the by-id handlers,
const id = Number(idParam) followed by the Number.isInteger(id) guard:
returns the id as an integer when Number(idParam) is an integer, none
when it is NaN, infinite, or fractional.  Covers the whole
StringNumericLiteral grammar: whitespace-only strings convert to 0, and
hex, octal and binary prefixed forms are unsigned integers. -/
def jsNumberAsInt (s : String) : Option Int :=
  let cs := trimWsChars s.data
  match cs with
  | [] => some 0
  | '0' :: c :: rest =>
    if c == 'x' || c == 'X' then (baseDigitsVal? 16 rest).map Int.ofNat
    else if c == 'o' || c == 'O' then (baseDigitsVal? 8 rest).map Int.ofNat
    else if c == 'b' || c == 'B' then (baseDigitsVal? 2 rest).map Int.ofNat
    else parseDecimalToInt cs
  | _ => parseDecimalToInt cs

/-- Admin check shared by the mutating handlers: the session exists and
session.user?.role is the string admin (the source guard is
!session || session.user?.role !== "admin"). -/
def adminOk (session : Option Session) : Bool :=
  match session with
  | none => false
  | some s => (s.user.bind SessionUser.role) == some "admin"

/-- Row lookup by id, modelling SELECT ... FROM logs WHERE id = ?. -/
def Store.findRow (st : Store) (i : Int) : Option Log :=
  st.rows.find? (fun r => r.id == i)

/-- Descending-time comparison used to model ORDER BY time DESC. -/
def timeDesc (a b : Log) : Prop := b.time ≤ a.time

instance : DecidableRel timeDesc := fun a b => by
  unfold timeDesc; infer_instance

instance : IsTotal Log timeDesc :=
  ⟨fun a b => le_total b.time a.time⟩

instance : IsTrans Log timeDesc :=
  ⟨fun _ _ _ hab hbc => le_trans hbc hab⟩

/-- GET handler of src/app/api/logs/route.ts: 401 without a session,
otherwise all rows ordered by time descending. -/
def getLogs (session : Option Session) (st : Store) : ApiResponse × Store :=
  match session with
  | none => (.error 401 "Unauthorized", st)
  | some _ => (.rows 200 (List.insertionSort timeDesc st.rows), st)

/-- POST handler of src/app/api/logs/route.ts: role check, presence
check on the three fields (a field is falsy when absent or empty), date
parse of time, then INSERT of the trimmed fields with updated_at = NOW()
and the fresh id, followed by a re-read of the inserted id.  created_at
is stamped at insertion; the INSERT statement itself does not list it.
Modelled from the spec: db/schema.sql is not among the sources, and the
spec states createdAt is set once at insertion, so the schema default is
modelled as stamping the current time. -/
def postLog (dp : String → Option Int) (session : Option Session)
    (body : Body) (now : Int) (st : Store) : ApiResponse × Store :=
  if adminOk session = false then
    (.error 403 "Unauthorized - Admin access required", st)
  else
    match body.petName, body.task, body.time with
    | some p, some t, some ts =>
      if p = "" ∨ t = "" ∨ ts = "" then
        (.error 400 "petName, task, and time are required", st)
      else
        match dp ts with
        | none => (.error 400 "Invalid time format", st)
        | some parsed =>
          let newRow : Log :=
            { id := st.nextId, petName := jsTrim p, task := jsTrim t,
              time := parsed, createdAt := now, updatedAt := now }
          let st2 : Store := { rows := st.rows ++ [newRow], nextId := st.nextId + 1 }
          match st2.findRow st.nextId with
          | some r => (.row 201 r, st2)
          | none => (.error 500 "Failed to create log", st2)
    | _, _, _ => (.error 400 "petName, task, and time are required", st)

/-- PUT handler of src/app/api/logs/[id]/route.ts: role check, id
validation via Number and Number.isInteger, presence check, date parse,
then UPDATE of the trimmed fields with updated_at = NOW() keyed by id,
followed by a re-read that yields 404 when the id matched no row. -/
def putLog (dp : String → Option Int) (session : Option Session)
    (idParam : String) (body : Body) (now : Int) (st : Store) :
    ApiResponse × Store :=
  if adminOk session = false then
    (.error 403 "Unauthorized - Admin access required", st)
  else
    match jsNumberAsInt idParam with
    | none => (.error 400 "Invalid id", st)
    | some i =>
      match body.petName, body.task, body.time with
      | some p, some t, some ts =>
        if p = "" ∨ t = "" ∨ ts = "" then
          (.error 400 "petName, task, and time are required", st)
        else
          match dp ts with
          | none => (.error 400 "Invalid time format", st)
          | some parsed =>
            let st2 : Store :=
              { st with rows := st.rows.map (fun r =>
                  if r.id = i then
                    { r with petName := jsTrim p, task := jsTrim t,
                             time := parsed, updatedAt := now }
                  else r) }
            match st2.findRow i with
            | none => (.error 404 "Log not found", st2)
            | some r => (.row 200 r, st2)
      | _, _, _ => (.error 400 "petName, task, and time are required", st)

/-- DELETE handler of src/app/api/logs/[id]/route.ts: role check, id
validation, DELETE keyed by id, 404 when no row was affected. -/
def deleteLog (session : Option Session) (idParam : String) (st : Store) :
    ApiResponse × Store :=
  if adminOk session = false then
    (.error 403 "Unauthorized - Admin access required", st)
  else
    match jsNumberAsInt idParam with
    | none => (.error 400 "Invalid id", st)
    | some i =>
      let affected := st.rows.countP (fun r => r.id == i)
      let st2 : Store := { st with rows := st.rows.filter (fun r => r.id != i) }
      if affected = 0 then (.error 404 "Log not found", st2)
      else (.ack 200 true, st2)

/-- Legacy PUT variant from the unnamed source file: identical flow to
the current PUT except that it performs no session check and its UPDATE
statement does not set updated_at. -/
def legacyPut (dp : String → Option Int) (idParam : String) (body : Body)
    (st : Store) : ApiResponse × Store :=
  match jsNumberAsInt idParam with
  | none => (.error 400 "Invalid id", st)
  | some i =>
    match body.petName, body.task, body.time with
    | some p, some t, some ts =>
      if p = "" ∨ t = "" ∨ ts = "" then
        (.error 400 "petName, task, and time are required", st)
      else
        match dp ts with
        | none => (.error 400 "Invalid time format", st)
        | some parsed =>
          let st2 : Store :=
            { st with rows := st.rows.map (fun r =>
                if r.id = i then
                  { r with petName := jsTrim p, task := jsTrim t, time := parsed }
                else r) }
          match st2.findRow i with
          | none => (.error 404 "Log not found", st2)
          | some r => (.row 200 r, st2)
    | _, _, _ => (.error 400 "petName, task, and time are required", st)

/-- Legacy DELETE variant from the unnamed source file: identical to the
current DELETE except that it performs no session check. -/
def legacyDelete (idParam : String) (st : Store) : ApiResponse × Store :=
  match jsNumberAsInt idParam with
  | none => (.error 400 "Invalid id", st)
  | some i =>
    let affected := st.rows.countP (fun r => r.id == i)
    let st2 : Store := { st with rows := st.rows.filter (fun r => r.id != i) }
    if affected = 0 then (.error 404 "Log not found", st2)
    else (.ack 200 true, st2)

/-- Hardcoded admin email of the auth module. -/
def ADMIN_EMAIL : String := "admin@petcare.com"

/-- Hardcoded admin password of the auth module. -/
def ADMIN_PASSWORD : String := "admin123"

/-- The user object returned by a NextAuth provider. -/
structure AuthUser where
  id : String
  email : Option String
  name : Option String
  role : Option String
deriving DecidableEq, Repr

/-- The JWT token shape manipulated by the jwt callback. -/
structure Token where
  role : Option String
  id : Option String
deriving DecidableEq, Repr

/-- Credentials provider authorize callback: exact match against the
hardcoded pair yields the admin user, anything else returns null. -/
def authorize (email password : Option String) : Option AuthUser :=
  if email = some ADMIN_EMAIL ∧ password = some ADMIN_PASSWORD then
    some { id := "admin", email := some ADMIN_EMAIL, name := some "Admin",
           role := some "admin" }
  else none

/-- JavaScript logical-or on an optional string against a default: the
left side wins unless it is absent or empty (falsy). -/
def jsOrElse (x : Option String) (fallback : String) : String :=
  match x with
  | none => fallback
  | some s => if s = "" then fallback else s

/-- The jwt callback of the auth module: on sign-in (user present) the
token role becomes user.role, falling back to user for the google
provider and admin otherwise; the token id becomes the user id. -/
def jwtCallback (token : Token) (user : Option AuthUser)
    (accountProvider : Option String) : Token :=
  match user with
  | none => token
  | some u =>
    { token with
      role := some (jsOrElse u.role
        (if accountProvider = some "google" then "user" else "admin")),
      id := some u.id }

/-- Client-side merge after a successful update (handleSubmit in
src/app/page.tsx): replace, in place, every local entry whose id equals
the id of the returned row. -/
def mergeUpdate (data : Log) (prev : List Log) : List Log :=
  prev.map (fun item => if item.id = data.id then data else item)

/-- Modelled from the spec: the phrase a well-formed positive integer
describing valid id path parameters — the decimal digits of a positive
natural number. -/
def specWellFormedPositiveIntString (s : String) : Bool :=
  !s.data.isEmpty && s.data.all Char.isDigit && decDigitsVal s.data != 0

/-- Sample host date parser used to instantiate concrete evaluations and
witnesses: it recognises one ISO-8601 instant and maps it to its epoch
milliseconds, refusing everything else.  The claims' theorems quantify
over the parser, so any instantiation is admissible. -/
def sampleDateParse (s : String) : Option Int :=
  if s = "2024-01-01T08:00:00Z" then some 1704096000000 else none

/-- Fixture row for concrete evaluations. -/
def sampleLog1 : Log :=
  { id := 1, petName := "Milo", task := "Fed", time := 100,
    createdAt := 50, updatedAt := 50 }

/-- Fixture store holding the single fixture row. -/
def store1 : Store := { rows := [sampleLog1], nextId := 2 }

/-- Fixture admin session. -/
def adminSession : Option Session :=
  some { user := some { role := some "admin" } }

/-- Fixture viewer session (the role the google path assigns). -/
def viewerSession : Option Session :=
  some { user := some { role := some "user" } }

/-- Fixture valid request body. -/
def body1 : Body :=
  { petName := some "Milo", task := some "Walked",
    time := some "2024-01-01T08:00:00Z" }

/-- Fixture user object as produced by the OAuth provider: it carries no
role claim. -/
def googleUser : AuthUser :=
  { id := "g1", email := some "viewer@gmail.com", name := some "Viewer",
    role := none }

example : jsNumberAsInt "1" = some 1 := by decide
example : jsNumberAsInt "0" = some 0 := by decide
example : jsNumberAsInt "-5" = some (-5) := by decide
example : jsNumberAsInt "" = some 0 := by decide
example : jsNumberAsInt "abc" = none := by decide
example : jsNumberAsInt "1.5" = none := by decide
example : jsNumberAsInt "1e2" = some 100 := by decide
example : jsNumberAsInt "0x10" = some 16 := by decide
example : jsNumberAsInt " 7 " = some 7 := by decide
example : jsNumberAsInt "7." = some 7 := by decide
example : jsNumberAsInt "Infinity" = none := by decide
example : jsTrim "  Milo " = "Milo" := by decide
example : jsTrim "   " = "" := by decide
example : adminOk adminSession = true := by decide
example : adminOk viewerSession = false := by decide
example : legacyDelete "1" store1 = (.ack 200 true, { rows := [], nextId := 2 }) := by decide
example : deleteLog adminSession "0" store1 = (.error 404 "Log not found", store1) := by decide

/-- A keyed in-place map leaves a list unchanged when no element carries
the key. -/
theorem map_if_id_of_absent (g : Log → Log) (i : Int) (l : List Log)
    (h : ∀ r ∈ l, r.id ≠ i) :
    l.map (fun r => if r.id = i then g r else r) = l := by
  have h2 : ∀ r ∈ l, (fun r => if r.id = i then g r else r) r = id r := by
    intro r hr
    simp [h r hr]
  rw [List.map_congr_left h2, List.map_id]

/-- A keyed in-place map commutes with a keyed lookup when the update
preserves the key. -/
theorem find?_map_keyed (i : Int) (g : Log → Log)
    (hg : ∀ r, (g r).id = r.id) (l : List Log) :
    (l.map (fun r => if r.id = i then g r else r)).find? (fun r => r.id == i) =
      (l.find? (fun r => r.id == i)).map (fun r => if r.id = i then g r else r) := by
  induction l with
  | nil => rfl
  | cons a tl ih =>
    by_cases ha : a.id = i
    · simp [List.find?, ha, hg]
    · have hb : (a.id == i) = false := by simp [ha]
      simp [List.find?, ha, hb, ih]

/-- Whitespace-only strings trim to the empty string. -/
theorem jsTrim_eq_empty_of_ws (s : String)
    (h : ∀ c ∈ s.data, jsIsWs c = true) : jsTrim s = "" := by
  unfold jsTrim trimWsChars
  rw [List.dropWhile_eq_nil_iff.mpr h]
  rfl

/-- Claim C1, counterexample: through the legacy by-id handlers, which
consult no session at all, a delete by a caller without the admin role
returns a success acknowledgment (not 403) and removes the row from the
store, refuting the claim that all three mutating operations fail with
403 and leave the store unchanged for every session lacking the admin
role. -/
theorem claim_C1_counterexample :
    legacyDelete "1" store1 = (ApiResponse.ack 200 true, { rows := [], nextId := 2 }) ∧
    (legacyDelete "1" store1).2 ≠ store1 := by
  decide

/-- Claim C1, amended: for the session-checking handlers of the current
routes, every session lacking the admin role receives 403 from create,
update and delete, and the store is left unchanged, regardless of the
payload; the legacy by-id variant handlers perform no role check. -/
theorem claim_C1_role_invariant (dp : String → Option Int)
    (session : Option Session) (idParam : String) (body : Body) (now : Int)
    (st : Store) (h : adminOk session = false) :
    postLog dp session body now st =
      (.error 403 "Unauthorized - Admin access required", st) ∧
    putLog dp session idParam body now st =
      (.error 403 "Unauthorized - Admin access required", st) ∧
    deleteLog session idParam st =
      (.error 403 "Unauthorized - Admin access required", st) := by
  refine ⟨?_, ?_, ?_⟩ <;> simp [postLog, putLog, deleteLog, h]

/-- Claim C1, witness: a viewer session receives 403 from all three
mutating handlers on a concrete store and payload. -/
theorem claim_C1_role_invariant_witness :
    adminOk viewerSession = false ∧
    postLog sampleDateParse viewerSession body1 99 store1 =
      (.error 403 "Unauthorized - Admin access required", store1) ∧
    putLog sampleDateParse viewerSession "1" body1 99 store1 =
      (.error 403 "Unauthorized - Admin access required", store1) ∧
    deleteLog viewerSession "1" store1 =
      (.error 403 "Unauthorized - Admin access required", store1) :=
  ⟨by decide,
   claim_C1_role_invariant sampleDateParse viewerSession "1" body1 99 store1
     (by decide)⟩

/-- Claim C2: evaluated at a concrete valid update of the fixture row,
the legacy PUT variant succeeds (200 with the updated row) but leaves
updatedAt at its old value 50, while the current PUT handler run at
current time 99 stamps updatedAt to 99.  The legacy variant therefore
falsifies the claim that every successful update refreshes updatedAt,
which the specification itself flags as a latent bug. -/
theorem claim_C2_updatedAt_divergence :
    (legacyPut sampleDateParse "1" body1 store1).1 =
      .row 200 { id := 1, petName := "Milo", task := "Walked",
                 time := 1704096000000, createdAt := 50, updatedAt := 50 } ∧
    (putLog sampleDateParse adminSession "1" body1 99 store1).1 =
      .row 200 { id := 1, petName := "Milo", task := "Walked",
                 time := 1704096000000, createdAt := 50, updatedAt := 99 } := by
  decide

/-- Claim C3, counterexample: the id parameter 0 is not a well-formed
positive integer, yet update and delete as admin do not reject it with
400; JavaScript Number converts it to the integer 0, the check passes,
and both handlers fall through to a 404 after consulting the store. -/
theorem claim_C3_counterexample :
    specWellFormedPositiveIntString "0" = false ∧
    putLog sampleDateParse adminSession "0" body1 99 store1 =
      (.error 404 "Log not found", store1) ∧
    deleteLog adminSession "0" store1 =
      (.error 404 "Log not found", store1) := by
  decide

/-- Claim C3, amended: as admin, update and delete reject with the 400
Invalid id error, leaving the store unchanged, exactly when the id path
parameter does not convert to an integer under JavaScript Number
semantics; in particular non-positive integer parameters such as 0 or -1
pass the validation and reach the store. -/
theorem claim_C3_invalid_id_iff (dp : String → Option Int)
    (session : Option Session) (idParam : String) (body : Body) (now : Int)
    (st : Store) (h : adminOk session = true) :
    (putLog dp session idParam body now st = (.error 400 "Invalid id", st) ↔
      jsNumberAsInt idParam = none) ∧
    (deleteLog session idParam st = (.error 400 "Invalid id", st) ↔
      jsNumberAsInt idParam = none) := by
  constructor
  · cases hn : jsNumberAsInt idParam with
    | none => simp [putLog, h, hn]
    | some i =>
      simp only [putLog, h, hn]
      constructor
      · intro heq
        rw [if_neg (by simp : ¬((true : Bool) = false))] at heq
        exfalso
        rcases body with ⟨_ | p, _ | t, _ | ts⟩ <;> simp only [] at heq <;>
          try (refine absurd (congrArg Prod.fst heq) ?_; simp)
        by_cases hcond : p = "" ∨ t = "" ∨ ts = ""
        · rw [if_pos hcond] at heq
          exact absurd (congrArg Prod.fst heq) (by simp)
        · rw [if_neg hcond] at heq
          cases hdp : dp ts with
          | none =>
            rw [hdp] at heq
            exact absurd (congrArg Prod.fst heq) (by simp)
          | some parsed =>
            rw [hdp] at heq
            simp only [] at heq
            split at heq <;> exact absurd (congrArg Prod.fst heq) (by simp)
      · intro h2
        exact absurd h2 (by simp)
  · cases hn : jsNumberAsInt idParam with
    | none => simp [deleteLog, h, hn]
    | some i =>
      simp only [deleteLog, h, hn]
      constructor
      · intro heq
        rw [if_neg (by simp : ¬((true : Bool) = false))] at heq
        exfalso
        split at heq <;> exact absurd (congrArg Prod.fst heq) (by simp)
      · intro h2
        exact absurd h2 (by simp)

/-- Successful create: with an admin session, non-empty fields and a
parseable time, POST appends the freshly numbered row with trimmed
string fields, both timestamps stamped now, and returns it with 201. -/
theorem postLog_success (dp : String → Option Int) (session : Option Session)
    (p t ts : String) (parsed now : Int) (st : Store)
    (hadmin : adminOk session = true)
    (hp : p ≠ "") (ht : t ≠ "") (hts : ts ≠ "")
    (hdp : dp ts = some parsed)
    (hfresh : ∀ r ∈ st.rows, r.id ≠ st.nextId) :
    postLog dp session { petName := some p, task := some t, time := some ts } now st =
      (.row 201 { id := st.nextId, petName := jsTrim p, task := jsTrim t,
                  time := parsed, createdAt := now, updatedAt := now },
       { rows := st.rows ++ [{ id := st.nextId, petName := jsTrim p, task := jsTrim t,
                               time := parsed, createdAt := now, updatedAt := now }],
         nextId := st.nextId + 1 }) := by
  simp only [postLog, hadmin]
  rw [if_neg (by simp : ¬((true : Bool) = false))]
  rw [if_neg (by simp [hp, ht, hts])]
  rw [hdp]
  simp only [Store.findRow]
  have hnone : st.rows.find? (fun r => r.id == st.nextId) = none :=
    List.find?_eq_none.mpr (fun x hx => by simp [hfresh x hx])
  rw [List.find?_append, hnone]
  simp [List.find?]

/-- Successful update: with an admin session, an integer id that matches
a stored row, non-empty fields and a parseable time, PUT rewrites that
row with the trimmed fields, stamps updatedAt, and returns the re-read
row with 200. -/
theorem putLog_success (dp : String → Option Int) (session : Option Session)
    (idParam : String) (p t ts : String) (parsed now : Int) (st : Store)
    (i : Int) (r0 : Log)
    (hadmin : adminOk session = true)
    (hid : jsNumberAsInt idParam = some i)
    (hp : p ≠ "") (ht : t ≠ "") (hts : ts ≠ "")
    (hdp : dp ts = some parsed)
    (hfind : st.rows.find? (fun r => r.id == i) = some r0) :
    putLog dp session idParam { petName := some p, task := some t, time := some ts } now st =
      (.row 200 { r0 with petName := jsTrim p, task := jsTrim t,
                          time := parsed, updatedAt := now },
       { rows := st.rows.map (fun r =>
           if r.id = i then
             { r with petName := jsTrim p, task := jsTrim t,
                      time := parsed, updatedAt := now }
           else r),
         nextId := st.nextId }) := by
  have hr0 : r0.id = i := by
    have := List.find?_some hfind
    simpa using this
  simp only [putLog, hadmin]
  rw [if_neg (by simp : ¬((true : Bool) = false)), hid]
  simp only []
  rw [if_neg (by simp [hp, ht, hts])]
  rw [hdp]
  simp only [Store.findRow]
  rw [find?_map_keyed i
        (fun r => { r with petName := jsTrim p, task := jsTrim t,
                           time := parsed, updatedAt := now })
        (fun r => rfl) st.rows,
      hfind]
  simp [hr0]

/-- Claim C4: for every valid payload submitted by an admin, create
trims the string fields, appends one row with the generated id and both
timestamps stamped, returns the freshly read row with 201 echoing the
trimmed fields, and a subsequent list contains exactly one new entry
carrying those fields. -/
theorem claim_C4_create (dp : String → Option Int) (session : Option Session)
    (p t ts : String) (parsed now : Int) (st : Store)
    (hadmin : adminOk session = true)
    (hp : p ≠ "") (ht : t ≠ "") (hts : ts ≠ "")
    (hdp : dp ts = some parsed)
    (hfresh : ∀ r ∈ st.rows, r.id ≠ st.nextId) :
    ∃ (row : Log) (l : List Log),
      row = { id := st.nextId, petName := jsTrim p, task := jsTrim t,
              time := parsed, createdAt := now, updatedAt := now } ∧
      postLog dp session { petName := some p, task := some t, time := some ts } now st =
        (.row 201 row, { rows := st.rows ++ [row], nextId := st.nextId + 1 }) ∧
      (getLogs session { rows := st.rows ++ [row], nextId := st.nextId + 1 }).1 =
        .rows 200 l ∧
      l.Perm (st.rows ++ [row]) ∧
      l.countP (fun r => r.id == st.nextId) = 1 := by
  cases session with
  | none => simp [adminOk] at hadmin
  | some sess =>
    refine ⟨_, _, rfl,
      postLog_success dp (some sess) p t ts parsed now st hadmin hp ht hts hdp hfresh,
      rfl, List.perm_insertionSort _ _, ?_⟩
    rw [(List.perm_insertionSort timeDesc _).countP_eq]
    rw [List.countP_append]
    have h0 : st.rows.countP (fun r => r.id == st.nextId) = 0 :=
      List.countP_eq_zero.mpr (fun a ha => by simp [hfresh a ha])
    rw [h0]
    simp [List.countP, List.countP.go]

/-- Claim C4, witness: the create-then-list property at a concrete admin
create of a payload with an untrimmed pet name on the fixture store. -/
theorem claim_C4_create_witness :
    (∀ r ∈ store1.rows, r.id ≠ store1.nextId) ∧
    (∃ (row : Log) (l : List Log),
      row = { id := store1.nextId, petName := jsTrim "Milo ", task := jsTrim "Fed",
              time := 1704096000000, createdAt := 7, updatedAt := 7 } ∧
      postLog sampleDateParse adminSession
          { petName := some "Milo ", task := some "Fed",
            time := some "2024-01-01T08:00:00Z" } 7 store1 =
        (.row 201 row, { rows := store1.rows ++ [row], nextId := store1.nextId + 1 }) ∧
      (getLogs adminSession { rows := store1.rows ++ [row], nextId := store1.nextId + 1 }).1 =
        .rows 200 l ∧
      l.Perm (store1.rows ++ [row]) ∧
      l.countP (fun r => r.id == store1.nextId) = 1) :=
  ⟨by decide,
   claim_C4_create sampleDateParse adminSession "Milo " "Fed" "2024-01-01T08:00:00Z"
     1704096000000 7 store1 (by decide) (by decide) (by decide) (by decide) rfl
     (by decide)⟩

/-- Claim C5: with an admin session, a time field whose string does not
parse to an instant makes both create and update answer a 400 validation
error and leave the store untouched. -/
theorem claim_C5_malformed_time (dp : String → Option Int)
    (session : Option Session) (body : Body) (idParam : String) (ts : String)
    (now : Int) (st : Store)
    (hadmin : adminOk session = true)
    (htime : body.time = some ts) (hbad : dp ts = none) :
    (∃ m, postLog dp session body now st = (.error 400 m, st)) ∧
    (∃ m, putLog dp session idParam body now st = (.error 400 m, st)) := by
  rcases body with ⟨pn, tk, tm⟩
  simp only [] at htime
  subst htime
  constructor
  · simp only [postLog, hadmin]
    rw [if_neg (by simp : ¬((true : Bool) = false))]
    rcases pn with _ | p <;> rcases tk with _ | t
    · exact ⟨_, rfl⟩
    · exact ⟨_, rfl⟩
    · exact ⟨_, rfl⟩
    · simp only []
      by_cases hcond : p = "" ∨ t = "" ∨ ts = ""
      · rw [if_pos hcond]; exact ⟨_, rfl⟩
      · rw [if_neg hcond, hbad]; exact ⟨_, rfl⟩
  · simp only [putLog, hadmin]
    rw [if_neg (by simp : ¬((true : Bool) = false))]
    cases hn : jsNumberAsInt idParam with
    | none => exact ⟨_, rfl⟩
    | some i =>
      rcases pn with _ | p <;> rcases tk with _ | t
      · exact ⟨_, rfl⟩
      · exact ⟨_, rfl⟩
      · exact ⟨_, rfl⟩
      · simp only []
        by_cases hcond : p = "" ∨ t = "" ∨ ts = ""
        · rw [if_pos hcond]; exact ⟨_, rfl⟩
        · rw [if_neg hcond, hbad]; exact ⟨_, rfl⟩

/-- Claim C5, witness: a malformed time string is rejected with 400 by
both create and update at a concrete admin session and store. -/
theorem claim_C5_malformed_time_witness :
    adminOk adminSession = true ∧
    (∃ m, postLog sampleDateParse adminSession
        { petName := some "Milo", task := some "Fed", time := some "not-a-date" }
        99 store1 = (.error 400 m, store1)) ∧
    (∃ m, putLog sampleDateParse adminSession "1"
        { petName := some "Milo", task := some "Fed", time := some "not-a-date" }
        99 store1 = (.error 400 m, store1)) :=
  ⟨by decide,
   claim_C5_malformed_time sampleDateParse adminSession
     { petName := some "Milo", task := some "Fed", time := some "not-a-date" }
     "1" "not-a-date" 99 store1 (by decide) rfl (by decide)⟩

/-- Claim C6: with an admin session, valid inputs and an integer id
matching no stored row, update and delete answer 404 and leave the store
unchanged, so a delete repeated on the same absent id answers 404 both
times and never succeeds twice. -/
theorem claim_C6_unknown_id (dp : String → Option Int)
    (session : Option Session) (idParam : String) (p t ts : String)
    (parsed now : Int) (st : Store) (i : Int)
    (hadmin : adminOk session = true)
    (hid : jsNumberAsInt idParam = some i)
    (habsent : ∀ r ∈ st.rows, r.id ≠ i)
    (hp : p ≠ "") (ht : t ≠ "") (hts : ts ≠ "")
    (hdp : dp ts = some parsed) :
    putLog dp session idParam { petName := some p, task := some t, time := some ts } now st =
      (.error 404 "Log not found", st) ∧
    deleteLog session idParam st = (.error 404 "Log not found", st) ∧
    deleteLog session idParam (deleteLog session idParam st).2 =
      (.error 404 "Log not found", st) := by
  have hmap : st.rows.map (fun r =>
      if r.id = i then { r with petName := jsTrim p, task := jsTrim t,
                                time := parsed, updatedAt := now } else r) = st.rows :=
    map_if_id_of_absent _ i st.rows habsent
  have hfind : st.rows.find? (fun r => r.id == i) = none :=
    List.find?_eq_none.mpr (fun x hx => by simp [habsent x hx])
  have hdel : deleteLog session idParam st = (.error 404 "Log not found", st) := by
    simp only [deleteLog, hadmin]
    rw [if_neg (by simp : ¬((true : Bool) = false)), hid]
    simp only []
    have hc : st.rows.countP (fun r => r.id == i) = 0 :=
      List.countP_eq_zero.mpr (fun a ha => by simp [habsent a ha])
    have hfilter : st.rows.filter (fun r => r.id != i) = st.rows :=
      List.filter_eq_self.mpr (fun a ha => by simp [habsent a ha])
    rw [hc, hfilter]
    simp
  have hput : putLog dp session idParam
      { petName := some p, task := some t, time := some ts } now st =
      (.error 404 "Log not found", st) := by
    simp only [putLog, hadmin]
    rw [if_neg (by simp : ¬((true : Bool) = false)), hid]
    simp only []
    rw [if_neg (by simp [hp, ht, hts])]
    rw [hdp]
    simp only [Store.findRow]
    rw [hmap, hfind]
  refine ⟨hput, hdel, ?_⟩
  rw [hdel]
  exact hdel

/-- Claim C6, witness: update and delete of the absent id 5 on the
fixture store answer 404 twice without mutating it. -/
theorem claim_C6_unknown_id_witness :
    (∀ r ∈ store1.rows, r.id ≠ (5 : Int)) ∧
    putLog sampleDateParse adminSession "5" body1 99 store1 =
      (.error 404 "Log not found", store1) ∧
    deleteLog adminSession "5" store1 = (.error 404 "Log not found", store1) ∧
    deleteLog adminSession "5" (deleteLog adminSession "5" store1).2 =
      (.error 404 "Log not found", store1) :=
  ⟨by decide,
   claim_C6_unknown_id sampleDateParse adminSession "5" "Milo" "Walked"
     "2024-01-01T08:00:00Z" 1704096000000 99 store1 5 (by decide) (by decide)
     (by decide) (by decide) (by decide) (by decide) rfl⟩

/-- Claim C7: without a session the list operation answers 401; with any
session it answers 200 with all stored rows ordered by time
descending. -/
theorem claim_C7_list_ordering (st : Store) (sess : Session) :
    getLogs none st = (.error 401 "Unauthorized", st) ∧
    ∃ l, getLogs (some sess) st = (.rows 200 l, st) ∧
      l.Perm st.rows ∧ List.Pairwise timeDesc l := by
  refine ⟨rfl, List.insertionSort timeDesc st.rows, rfl,
    List.perm_insertionSort _ _, ?_⟩
  exact List.sorted_insertionSort timeDesc st.rows

/-- Claim C3, witness: the amended equivalence evaluated at a concrete
admin session, a non-numeric id and a numeric one. -/
theorem claim_C3_invalid_id_iff_witness :
    adminOk adminSession = true ∧
    (deleteLog adminSession "abc" store1 =
        (.error 400 "Invalid id", store1) ↔ jsNumberAsInt "abc" = none) :=
  ⟨by decide,
   (claim_C3_invalid_id_iff sampleDateParse adminSession "abc" body1 99 store1
     (by decide)).2⟩

/-- Claim C8: a principal from the google OAuth path (whose provider
user object carries no role) is always assigned role user by the jwt
callback and never admin; the credentials path authorizes exactly the
hardcoded email and password pair, yielding the admin role, and rejects
everything else. -/
theorem claim_C8_role_assignment :
    (∀ (tok : Token) (u : AuthUser) (prov : Option String),
        u.role = none → prov = some "google" →
        (jwtCallback tok (some u) prov).role = some "user" ∧
        (jwtCallback tok (some u) prov).role ≠ some "admin") ∧
    (∀ e pw : Option String,
        (authorize e pw).isSome ↔
          e = some ADMIN_EMAIL ∧ pw = some ADMIN_PASSWORD) ∧
    (∀ (e pw : Option String) (u : AuthUser),
        authorize e pw = some u → u.role = some "admin") := by
  refine ⟨?_, ?_, ?_⟩
  · intro tok u prov hrole hprov
    subst hprov
    simp [jwtCallback, hrole, jsOrElse]
  · intro e pw
    by_cases hc : e = some ADMIN_EMAIL ∧ pw = some ADMIN_PASSWORD
    · simp [authorize, hc]
    · simp [authorize, hc]
  · intro e pw u hu
    unfold authorize at hu
    split_ifs at hu
    cases hu
    rfl

/-- Claim C8, witness: the role assignments evaluated at a concrete
google principal and at the hardcoded credential pair. -/
theorem claim_C8_role_assignment_witness :
    ((jwtCallback { role := none, id := none } (some googleUser)
        (some "google")).role = some "user" ∧
      (jwtCallback { role := none, id := none } (some googleUser)
        (some "google")).role ≠ some "admin") ∧
    ((authorize (some ADMIN_EMAIL) (some ADMIN_PASSWORD)).isSome ↔
      some ADMIN_EMAIL = some ADMIN_EMAIL ∧
        some ADMIN_PASSWORD = some ADMIN_PASSWORD) :=
  ⟨claim_C8_role_assignment.1 { role := none, id := none } googleUser
     (some "google") rfl rfl,
   claim_C8_role_assignment.2.1 (some ADMIN_EMAIL) (some ADMIN_PASSWORD)⟩

/-- Claim C9: an admin create or update whose petName and task are
non-empty but consist only of whitespace passes the presence check,
which runs on the untrimmed values, and then stores and returns the
empty string for those fields, so a Log can exist with empty petName and
task. -/
theorem claim_C9_whitespace_fields (dp : String → Option Int)
    (session : Option Session) (p t ts idParam : String) (parsed now : Int)
    (st : Store) (i : Int) (r0 : Log)
    (hadmin : adminOk session = true)
    (hp : p ≠ "") (hpw : ∀ c ∈ p.data, jsIsWs c = true)
    (ht : t ≠ "") (htw : ∀ c ∈ t.data, jsIsWs c = true)
    (hts : ts ≠ "") (hdp : dp ts = some parsed)
    (hfresh : ∀ r ∈ st.rows, r.id ≠ st.nextId)
    (hid : jsNumberAsInt idParam = some i)
    (hfind : st.rows.find? (fun r => r.id == i) = some r0) :
    (postLog dp session { petName := some p, task := some t, time := some ts } now st).1 =
      .row 201 { id := st.nextId, petName := "", task := "", time := parsed,
                 createdAt := now, updatedAt := now } ∧
    (putLog dp session idParam { petName := some p, task := some t, time := some ts } now st).1 =
      .row 200 { id := r0.id, petName := "", task := "", time := parsed,
                 createdAt := r0.createdAt, updatedAt := now } := by
  have hpe : jsTrim p = "" := jsTrim_eq_empty_of_ws p hpw
  have hte : jsTrim t = "" := jsTrim_eq_empty_of_ws t htw
  constructor
  · rw [postLog_success dp session p t ts parsed now st hadmin hp ht hts hdp hfresh]
    rw [hpe, hte]
  · rw [putLog_success dp session idParam p t ts parsed now st i r0 hadmin hid
        hp ht hts hdp hfind]
    rw [hpe, hte]

/-- Claim C9, witness: create and update with a space-only petName and a
tab-only task succeed as admin on the fixture store and produce rows
with empty petName and task. -/
theorem claim_C9_whitespace_fields_witness :
    (" " : String) ≠ "" ∧
    (postLog sampleDateParse adminSession
        { petName := some " ", task := some "\t",
          time := some "2024-01-01T08:00:00Z" } 7 store1).1 =
      .row 201 { id := store1.nextId, petName := "", task := "",
                 time := 1704096000000, createdAt := 7, updatedAt := 7 } ∧
    (putLog sampleDateParse adminSession "1"
        { petName := some " ", task := some "\t",
          time := some "2024-01-01T08:00:00Z" } 7 store1).1 =
      .row 200 { id := sampleLog1.id, petName := "", task := "",
                 time := 1704096000000, createdAt := sampleLog1.createdAt,
                 updatedAt := 7 } :=
  ⟨by decide,
   claim_C9_whitespace_fields sampleDateParse adminSession " " "\t"
     "2024-01-01T08:00:00Z" "1" 1704096000000 7 store1 1 sampleLog1
     (by decide) (by decide) (by decide) (by decide) (by decide) (by decide)
     rfl (by decide) (by decide) (by decide)⟩

/-- Claim C10: the client merge after a successful update replaces, in
place, the local entries whose id equals the id of the returned row; if
that id is not present in the local list, the merge leaves the list
unchanged and the returned row is dropped. -/
theorem claim_C10_update_merge (data : Log) (prev : List Log)
    (h : ∀ r ∈ prev, r.id ≠ data.id) :
    mergeUpdate data prev = prev := by
  unfold mergeUpdate
  exact map_if_id_of_absent (fun _ => data) data.id prev h

/-- Claim C10, witness: merging an update response whose id 9 is absent
from the local list leaves the list unchanged. -/
theorem claim_C10_update_merge_witness :
    (∀ r ∈ [sampleLog1], r.id ≠ (9 : Int)) ∧
    mergeUpdate { id := 9, petName := "Rex", task := "Fed", time := 5,
                  createdAt := 5, updatedAt := 5 } [sampleLog1] = [sampleLog1] :=
  ⟨by decide,
   claim_C10_update_merge
     { id := 9, petName := "Rex", task := "Fed", time := 5,
       createdAt := 5, updatedAt := 5 } [sampleLog1] (by decide)⟩
